/-
  Verification of the Video-Agent pipeline (TypeScript repository).

  Shallow embedding of:
    - the scene splitter (global match of the regex [^.!?]+[.!?]+ over the
      note text, in `generateVideoAndUpload`),
    - the per-scene pipeline (ElevenLabs TTS step, Hugging Face image step
      with the single 503 retry, ffprobe duration step),
    - the manifest construction (imagelist.txt / audiolist.txt),
    - the try/finally temp-directory lifecycle,
    - the ffprobe duration helper `getAudioDuration`,
    - the Supabase upload helper `uploadVideoToSupabase`,
    - the Express gateway handler for POST /generate-video.

  Strings are modelled as `List Char` (written `Str` below); machine floats
  as `ℚ`; byte buffers as `List Nat`; external effects (network calls,
  subprocess invocations, file writes, sleeps) as an explicit event trace.
-/
import Mathlib

namespace VideoAgent

/-- Strings of the TypeScript program, modelled as lists of characters. -/
abbrev Str := List Char

/-- The sentence terminators of the scene-splitting regex `[^.!?]+[.!?]+`. -/
def isTerm (c : Char) : Bool := c = '.' || c = '!' || c = '?'

/-! ### Generic list lemmas used by the splitter proofs -/

theorem dropWhile_append_all_pos {α : Type} (p : α → Bool) :
    ∀ l l' : List α, (∀ x ∈ l, p x = true) →
      (l ++ l').dropWhile p = l'.dropWhile p := by
  intro l l' h
  induction l with
  | nil => rfl
  | cons c t ih =>
    have hc : p c = true := h c (by simp)
    rw [List.cons_append, List.dropWhile_cons, if_pos hc]
    exact ih (fun x hx => h x (by simp [hx]))

theorem dropWhile_append_of_neg {α : Type} (p : α → Bool) :
    ∀ l l' : List α, (∃ x ∈ l, p x = false) →
      (l ++ l').dropWhile p = l.dropWhile p ++ l' := by
  intro l l' h
  induction l with
  | nil =>
    rcases h with ⟨x, hx, _⟩
    exact absurd hx (by simp)
  | cons c t ih =>
    cases hc : p c with
    | true =>
      rw [List.cons_append, List.dropWhile_cons, if_pos hc,
        List.dropWhile_cons, if_pos hc]
      apply ih
      rcases h with ⟨x, hx, hpx⟩
      rcases List.mem_cons.mp hx with h1 | h1
      · rw [h1] at hpx; rw [hpx] at hc; exact absurd hc (by simp)
      · exact ⟨x, h1, hpx⟩
    | false =>
      rw [List.cons_append, List.dropWhile_cons, if_neg (by simp [hc]),
        List.dropWhile_cons, if_neg (by simp [hc]), List.cons_append]

theorem dropWhile_neg_head {α : Type} (q : α → Bool) :
    ∀ l : List α, l.any q = true →
      ∃ c t, l.dropWhile (fun x => !q x) = c :: t ∧ q c = true := by
  intro l h
  induction l with
  | nil => simp at h
  | cons c t ih =>
    cases hc : q c with
    | true =>
      refine ⟨c, t, ?_, hc⟩
      rw [List.dropWhile_cons, if_neg (by simp [hc])]
    | false =>
      have ht : t.any q = true := by
        rw [List.any_cons, hc] at h
        simpa using h
      rcases ih ht with ⟨d, u, hd, hq⟩
      refine ⟨d, u, ?_, hq⟩
      rw [List.dropWhile_cons, if_pos (by simp [hc])]
      exact hd

theorem head_dropWhile_neg {α : Type} (p : α → Bool) :
    ∀ l : List α, ∀ c t, l.dropWhile p = c :: t → p c = false := by
  intro l
  induction l with
  | nil => intro c t h; simp at h
  | cons a u ih =>
    intro c t h
    cases ha : p a with
    | true =>
      rw [List.dropWhile_cons, if_pos ha] at h
      exact ih c t h
    | false =>
      rw [List.dropWhile_cons, if_neg (by simp [ha])] at h
      have hac : a = c := (List.cons.injEq a u c t ▸ h).1
      rw [← hac]
      exact ha

theorem length_dropWhile_le' {α : Type} (p : α → Bool) :
    ∀ l : List α, (l.dropWhile p).length ≤ l.length := by
  intro l
  induction l with
  | nil => simp
  | cons c t ih =>
    cases hc : p c with
    | true =>
      rw [List.dropWhile_cons, if_pos hc]
      exact Nat.le_trans ih (Nat.le_succ _)
    | false =>
      rw [List.dropWhile_cons, if_neg (by simp [hc])]

/-! ### The scene splitter

`noteText.match(/[^.!?]+[.!?]+/g) || []` : repeated leftmost matching of
"a nonempty run of non-terminators followed by a nonempty run of
terminators".  Written with an explicit fuel argument (the input length)
so that it is structurally recursive and kernel-evaluable. -/

def sceneGo : Nat → Str → List Str
  | 0, _ => []
  | fuel + 1, s =>
    let s1 := s.dropWhile isTerm
    let a := s1.takeWhile (fun c => !isTerm c)
    let r1 := s1.dropWhile (fun c => !isTerm c)
    let b := r1.takeWhile isTerm
    let r2 := r1.dropWhile isTerm
    if b.isEmpty then [] else (a ++ b) :: sceneGo fuel r2

/-- The scene splitter: all matches of `[^.!?]+[.!?]+` over the input,
in order (`videoAgent.ts` line 69). -/
def splitScenes (s : Str) : List Str := sceneGo s.length s

/-- Everything of the input after dropping its leading terminator run and
its trailing terminator-free run: alternative characterisation of what the
splitter's matches jointly cover. -/
def sentenceContent (s : Str) : Str :=
  (((s.dropWhile isTerm).reverse.dropWhile (fun c => !isTerm c)).reverse)

/-- The input has a terminator that is preceded by at least one
non-terminator character (equivalently: a terminator survives past the
leading terminator run). -/
def hasSentence (s : Str) : Bool := (s.dropWhile isTerm).any isTerm

/-! ### Splitter correctness -/

theorem sceneGo_succ (f : Nat) (s : Str) :
    sceneGo (f + 1) s =
      (if ((s.dropWhile isTerm).dropWhile (fun c => !isTerm c)).takeWhile isTerm
          |>.isEmpty then []
       else ((s.dropWhile isTerm).takeWhile (fun c => !isTerm c) ++
              ((s.dropWhile isTerm).dropWhile (fun c => !isTerm c)).takeWhile isTerm) ::
            sceneGo f (((s.dropWhile isTerm).dropWhile (fun c => !isTerm c)).dropWhile isTerm)) :=
  rfl

/-- An input containing no sentence terminator yields no scene at all. -/
theorem sceneGo_no_term (fuel : Nat) (s : Str) (h : s.any isTerm = false) :
    sceneGo fuel s = [] := by
  cases fuel with
  | zero => rfl
  | succ f =>
    have hall : ∀ x ∈ s, isTerm x = false := by
      intro x hx
      have := List.any_eq_false.mp h x hx
      simpa using this
    have h1 : s.dropWhile isTerm = s := by
      cases s with
      | nil => rfl
      | cons c t =>
        rw [List.dropWhile_cons, if_neg (by simp [hall c (by simp)])]
    have h2 : s.dropWhile (fun c => !isTerm c) = [] :=
      List.dropWhile_eq_nil_iff.mpr (fun x hx => by simp [hall x hx])
    rw [sceneGo_succ, h1, h2]
    simp

/-- Dropping the trailing non-terminator run of `A ++ B ++ R` stays inside
`R` as soon as `R` holds a terminator. -/
theorem sentence_tail_term (A B R : Str) (hex : ∃ x ∈ R, isTerm x = true) :
    ((A ++ B ++ R).reverse.dropWhile (fun c => !isTerm c)).reverse =
      A ++ B ++ (R.reverse.dropWhile (fun c => !isTerm c)).reverse := by
  have hex' : ∃ x ∈ R.reverse, (fun c => !isTerm c) x = false := by
    rcases hex with ⟨x, hx, hxT⟩
    exact ⟨x, List.mem_reverse.mpr hx, by simp [hxT]⟩
  rw [List.reverse_append, dropWhile_append_of_neg _ _ _ hex', List.reverse_append,
    List.reverse_reverse]

/-- If `R` is terminator-free and `B` a nonempty terminator run, dropping the
trailing non-terminator run of `A ++ B ++ R` removes exactly `R`. -/
theorem sentence_tail_noterm (A B R : Str) (hB : B ≠ [])
    (hBterm : ∀ x ∈ B, isTerm x = true) (hR : ∀ x ∈ R, isTerm x = false) :
    ((A ++ B ++ R).reverse.dropWhile (fun c => !isTerm c)).reverse = A ++ B := by
  have hRall : ∀ x ∈ R.reverse, (fun c => !isTerm c) x = true := fun x hx => by
    simp [hR x (List.mem_reverse.mp hx)]
  rw [List.reverse_append, dropWhile_append_all_pos _ _ _ hRall, List.reverse_append]
  cases hBrev : B.reverse with
  | nil => exact absurd (by simpa using congrArg List.reverse hBrev) hB
  | cons y ys =>
    have hy : isTerm y = true := by
      apply hBterm
      apply List.mem_reverse.mp
      rw [hBrev]
      simp
    rw [List.cons_append, List.dropWhile_cons, if_neg (by simp [hy]),
      ← List.cons_append, ← hBrev, ← List.reverse_append, List.reverse_reverse]

/-- Core induction for the splitter: with enough fuel, an input whose
terminator-stripped form still holds a terminator splits into a nonempty
scene list whose concatenation is exactly `sentenceContent`. -/
theorem sceneGo_spec (fuel : Nat) :
    ∀ s : Str, s.length ≤ fuel → hasSentence s = true →
      sceneGo fuel s ≠ [] ∧ (sceneGo fuel s).flatten = sentenceContent s := by
  induction fuel with
  | zero =>
    intro s hlen hs
    have hnil : s = [] := List.length_eq_zero.mp (Nat.le_zero.mp hlen)
    rw [hnil] at hs
    simp [hasSentence] at hs
  | succ f ih =>
    intro s hlen hs
    rcases dropWhile_neg_head isTerm (s.dropWhile isTerm) hs with ⟨c, t, hr1, hc⟩
    have hb : ((s.dropWhile isTerm).dropWhile (fun c => !isTerm c)).takeWhile isTerm
        = c :: t.takeWhile isTerm := by
      rw [hr1, List.takeWhile_cons, if_pos hc]
    have hr2 : ((s.dropWhile isTerm).dropWhile (fun c => !isTerm c)).dropWhile isTerm
        = t.dropWhile isTerm := by
      rw [hr1, List.dropWhile_cons, if_pos hc]
    have hstep : sceneGo (f + 1) s =
        ((s.dropWhile isTerm).takeWhile (fun c => !isTerm c) ++ (c :: t.takeWhile isTerm)) ::
          sceneGo f (t.dropWhile isTerm) := by
      rw [sceneGo_succ, hb, hr2]
      simp
    -- all characters of the matched terminator run are terminators
    have hbterm : ∀ x ∈ c :: t.takeWhile isTerm, isTerm x = true := by
      intro x hx
      rcases List.mem_cons.mp hx with h1 | h1
      · rw [h1]; exact hc
      · exact List.mem_takeWhile_imp h1
    -- structure of the terminator-stripped input
    have hsplit : (s.dropWhile isTerm) =
        (s.dropWhile isTerm).takeWhile (fun c => !isTerm c) ++
          (c :: t.takeWhile isTerm) ++ t.dropWhile isTerm := by
      conv_lhs => rw [← List.takeWhile_append_dropWhile (fun c => !isTerm c) (s.dropWhile isTerm)]
      rw [hr1, List.append_assoc]
      congr 1
      rw [List.cons_append]
      congr 1
      exact (List.takeWhile_append_dropWhile isTerm t).symm
    -- fuel accounting
    have hfuel : (t.dropWhile isTerm).length ≤ f := by
      have h1 : (t.dropWhile isTerm).length ≤ t.length := length_dropWhile_le' isTerm t
      have h2 : ((s.dropWhile isTerm).dropWhile (fun c => !isTerm c)).length = t.length + 1 := by
        rw [hr1]; rfl
      have h3 : ((s.dropWhile isTerm).dropWhile (fun c => !isTerm c)).length ≤
          (s.dropWhile isTerm).length := length_dropWhile_le' _ _
      have h4 : (s.dropWhile isTerm).length ≤ s.length := length_dropWhile_le' _ _
      omega
    refine ⟨by rw [hstep]; simp, ?_⟩
    rw [hstep, List.flatten_cons]
    by_cases hr2any : (t.dropWhile isTerm).any isTerm = true
    · -- the remainder still holds a sentence: apply the induction hypothesis
      have hdw : (t.dropWhile isTerm).dropWhile isTerm = t.dropWhile isTerm := by
        cases hcase : t.dropWhile isTerm with
        | nil => rfl
        | cons x u =>
          have hx : isTerm x = false := head_dropWhile_neg isTerm t x u hcase
          rw [List.dropWhile_cons, if_neg (by simp [hx])]
      have hih := ih (t.dropWhile isTerm) hfuel (by rw [hasSentence, hdw]; exact hr2any)
      rw [hih.2]
      have hex : ∃ x ∈ t.dropWhile isTerm, isTerm x = true := List.any_eq_true.mp hr2any
      have hmain := sentence_tail_term
        ((s.dropWhile isTerm).takeWhile (fun c => !isTerm c))
        (c :: t.takeWhile isTerm) (t.dropWhile isTerm) hex
      rw [← hsplit] at hmain
      have hscR : sentenceContent (t.dropWhile isTerm) =
          ((t.dropWhile isTerm).reverse.dropWhile (fun c => !isTerm c)).reverse := by
        simp only [sentenceContent, hdw]
      rw [hscR]
      show _ = sentenceContent s
      simp only [sentenceContent]
      rw [hmain, List.append_assoc]
    · -- the remainder has no terminator left: this was the last scene
      have hr2none : (t.dropWhile isTerm).any isTerm = false := by
        cases hcase : (t.dropWhile isTerm).any isTerm with
        | true => exact absurd hcase hr2any
        | false => rfl
      rw [sceneGo_no_term f _ hr2none]
      have hRfree : ∀ x ∈ t.dropWhile isTerm, isTerm x = false := by
        intro x hx
        have := List.any_eq_false.mp hr2none x hx
        simpa using this
      have hmain := sentence_tail_noterm
        ((s.dropWhile isTerm).takeWhile (fun c => !isTerm c))
        (c :: t.takeWhile isTerm) (t.dropWhile isTerm) (by simp) hbterm hRfree
      rw [← hsplit] at hmain
      show _ = sentenceContent s
      simp only [sentenceContent]
      rw [hmain]
      simp

/-- With at least one terminator preceded by a non-terminator character, the
splitter yields a nonempty scene list concatenating to `sentenceContent`. -/
theorem splitScenes_spec (s : Str) (h : hasSentence s = true) :
    splitScenes s ≠ [] ∧ (splitScenes s).flatten = sentenceContent s :=
  sceneGo_spec s.length s (Nat.le_refl _) h

/-! ### Pipeline data model

The per-run outside world (network responses, subprocess results, the
`mkdtemp` result) is an `Env`; a run returns its result together with the
ordered trace of externally visible effects (`Ev`).  Byte buffers are
`List Nat`, machine floats are `ℚ`. -/

/-- JS `String.prototype.trim` whitespace (the characters relevant here). -/
def isWs (c : Char) : Bool :=
  c = ' ' || c = '\t' || c = '\n' || c = '\r' || c = '\x0b' || c = '\x0c'

/-- The call `text.trim()`. -/
def trim (s : Str) : Str := ((s.dropWhile isWs).reverse.dropWhile isWs).reverse

/-- Decimal rendering of a `Nat` (template-literal interpolation). -/
def natStr (n : Nat) : Str := (toString n).data

/-- Decimal rendering of the `noteId` number. -/
def intStr (n : Int) : Str := (toString n).data

/-- The single-quote character of the manifest lines. -/
def squote : Char := Char.ofNat 39

/-- One `{ audioPath, imagePath, duration }` record of `sceneAssets`. -/
structure SceneAsset where
  audioPath : Str
  imagePath : Str
  duration : ℚ
  deriving DecidableEq, Repr

/-- Outcome of one ElevenLabs `convertAsStream` call: either the collected
stream chunks, or a thrown error carrying an optional HTTP status code. -/
inductive TtsOutcome
  | ok (bytes : List Nat)
  | err (statusCode : Option Nat) (msg : Str)
  deriving DecidableEq, Repr

/-- One `node-fetch` response from the Hugging Face endpoint. -/
structure HttpResp where
  status : Nat
  body : Str
  bytes : List Nat
  deriving DecidableEq, Repr

/-- The flag `response.ok`: status in the inclusive range 200–299. -/
def HttpResp.isOk (r : HttpResp) : Bool := 200 ≤ r.status && r.status ≤ 299

/-- Outcome of one `ffmpeg.ffprobe` callback: an error, or metadata whose
`format.duration` field may be absent. -/
inductive ProbeOutcome
  | ok (duration : Option ℚ)
  | err (msg : Str)

/-- The outside world of one `generateVideoAndUpload` run.  `img i k` is the
response to the (k+1)-th fetch issued for scene `i`. -/
structure Env where
  tempDir : Str
  tts : Nat → TtsOutcome
  img : Nat → Nat → HttpResp
  probeRes : Nat → ProbeOutcome
  encodeOk : Bool
  videoBytes : List Nat
  uploadOk : Bool
  publicUrlOf : Str → Str
  renderNum : ℚ → Str

/-- Externally visible effects, in order of occurrence. -/
inductive Ev
  | mkTempDir
  | ttsCall (text : Str)
  | writeAudio (p : Str)
  | imgFetch (prompt : Str)
  | sleep20
  | writeImage (p : Str)
  | probeCall (p : Str)
  | writeImageList (content : Str)
  | writeAudioList (content : Str)
  | encode
  | readVideo
  | upload (bucket : Str) (key : Str)
  | rmTempDir
  deriving DecidableEq, Repr

/-- The pipeline's failure modes (the distinct `throw` sites). -/
inductive Err
  | couldNotSplit
  | ttsAuth
  | ttsFailed (msg : Str)
  | imageFailed (status : Nat) (body : Str)
  | probeFailed (msg : Str)
  | encodeFailed
  | emptyVideo
  | storageFailed
  deriving DecidableEq, Repr

/-- The path `path.join(tempDir, "scene_" + i + ".mp3")`. -/
def sceneAudioPath (tempDir : Str) (i : Nat) : Str :=
  tempDir ++ ("/scene_".data) ++ natStr i ++ (".mp3".data)

/-- The path `path.join(tempDir, "scene_" + i + ".png")`. -/
def sceneImagePath (tempDir : Str) (i : Nat) : Str :=
  tempDir ++ ("/scene_".data) ++ natStr i ++ (".png".data)

/-- The fixed subject→style table, with its generic fallback. -/
def styleGuide (subjectName : Str) : Str :=
  if subjectName = ("Biology".data) then
    ("clear educational diagram style, vibrant colors, labels".data)
  else if subjectName = ("Chemistry".data) then
    ("scientific illustration of molecules and reactions, digital art".data)
  else if subjectName = ("Physics".data) then
    ("clean physics diagram, showing forces and vectors, minimalist".data)
  else if subjectName = ("History".data) then
    ("realistic historical photograph style, black and white, cinematic lighting".data)
  else if subjectName = ("Literature".data) then
    ("dramatic oil painting, expressive, rich colors".data)
  else if subjectName = ("Mathematics".data) then
    ("clear handwritten chalkboard style, showing the steps of the equation".data)
  else
    ("simple educational illustration".data)

/-- The style-conditioned prompt sent to the image endpoint. -/
def imagePrompt (subjectName sceneText : Str) : Str :=
  ("An educational visual for a ".data) ++ subjectName ++ (" tutorial about: \"".data) ++
    sceneText ++ ("\". Style: ".data) ++ styleGuide subjectName ++ (".".data)

/-- Audio generation for one scene (`videoAgent.ts` lines 80–109): collect
the streamed chunks, reject an empty buffer before any file write, map a
401 from the SDK to the authentication error. -/
def ttsStep (o : TtsOutcome) (sceneText audioPath : Str) :
    Except Err (List Nat) × List Ev :=
  match o with
  | .ok bytes =>
    if bytes.isEmpty then
      (.error (.ttsFailed
        ("ElevenLabs SDK failed: ElevenLabs SDK returned an empty audio stream.".data)),
       [.ttsCall sceneText])
    else (.ok bytes, [.ttsCall sceneText, .writeAudio audioPath])
  | .err sc msg =>
    if sc = some 401 then (.error .ttsAuth, [.ttsCall sceneText])
    else (.error (.ttsFailed (("ElevenLabs SDK failed: ".data) ++ msg)), [.ttsCall sceneText])

/-- Image generation for one scene (`videoAgent.ts` lines 137–151): one
fetch; on a 503 wait 20 s and fetch once more; any non-ok final response is
terminal, carrying the status and body. -/
def imageStep (r1 r2 : HttpResp) (prompt imagePath : Str) :
    Except Err (List Nat) × List Ev :=
  if r1.status = 503 then
    if r2.isOk then
      (.ok r2.bytes, [.imgFetch prompt, .sleep20, .imgFetch prompt, .writeImage imagePath])
    else
      (.error (.imageFailed r2.status r2.body), [.imgFetch prompt, .sleep20, .imgFetch prompt])
  else
    if r1.isOk then (.ok r1.bytes, [.imgFetch prompt, .writeImage imagePath])
    else (.error (.imageFailed r1.status r1.body), [.imgFetch prompt])

/-- Duration probing for one scene (`videoAgent.ts` lines 223–230):
`metadata.format.duration || 0`. -/
def probeStep (o : ProbeOutcome) (audioPath : Str) : Except Err ℚ × List Ev :=
  match o with
  | .ok d => (.ok (match d with | none => 0 | some x => x), [.probeCall audioPath])
  | .err msg => (.error (.probeFailed msg), [.probeCall audioPath])

/-- One iteration of the scene loop, in source order: TTS, image, probe. -/
def runScene (env : Env) (subjectName : Str) (i : Nat) (sceneRaw : Str) :
    Except Err SceneAsset × List Ev :=
  let sceneText := trim sceneRaw
  let audioPath := sceneAudioPath env.tempDir i
  let imagePath := sceneImagePath env.tempDir i
  match ttsStep (env.tts i) sceneText audioPath with
  | (.error e, evs) => (.error e, evs)
  | (.ok _, evs1) =>
    match imageStep (env.img i 0) (env.img i 1) (imagePrompt subjectName sceneText) imagePath with
    | (.error e, evs2) => (.error e, evs1 ++ evs2)
    | (.ok _, evs2) =>
      match probeStep (env.probeRes i) audioPath with
      | (.error e, evs3) => (.error e, evs1 ++ evs2 ++ evs3)
      | (.ok d, evs3) => (.ok ⟨audioPath, imagePath, d⟩, evs1 ++ evs2 ++ evs3)

/-- The strictly sequential scene loop, accumulating `sceneAssets`; the
first failure aborts the remainder of the loop. -/
def runScenes (env : Env) (subjectName : Str) :
    Nat → List Str → Except Err (List SceneAsset) × List Ev
  | _, [] => (.ok [], [])
  | i, sc :: rest =>
    match runScene env subjectName i sc with
    | (.error e, evs) => (.error e, evs)
    | (.ok a, evs) =>
      match runScenes env subjectName (i + 1) rest with
      | (.error e, evs') => (.error e, evs ++ evs')
      | (.ok as, evs') => (.ok (a :: as), evs ++ evs')

/-- A manifest line `file '<path>'` (the path is already absolute, so `path.resolve` is the
identity on it). -/
def fileLine (p : Str) : Str := ("file ".data) ++ squote :: (p ++ [squote])

/-- A manifest line `duration <seconds>`, with `ρ` the number-to-string rendering of the
template literal. -/
def durationLine (ρ : ℚ → Str) (q : ℚ) : Str := ("duration ".data) ++ ρ q

/-- One image-list entry: `file '<imagePath>'\nduration <duration>`. -/
def imageEntry (ρ : ℚ → Str) (a : SceneAsset) : Str :=
  fileLine a.imagePath ++ '\n' :: durationLine ρ a.duration

/-- The call `Array.prototype.join("\n")`. -/
def intercalateNl : List Str → Str
  | [] => []
  | [x] => x
  | x :: y :: xs => x ++ '\n' :: intercalateNl (y :: xs)

/-- The content written to `imagelist.txt`. -/
def imageListContent (ρ : ℚ → Str) (assets : List SceneAsset) : Str :=
  intercalateNl (assets.map (imageEntry ρ))

/-- The content written to `audiolist.txt`. -/
def audioListContent (assets : List SceneAsset) : Str :=
  intercalateNl (assets.map (fun a => fileLine a.audioPath))

/-- Manifest writing, the single ffmpeg invocation, and the readback of the
output file with its emptiness check. -/
def assembleStep (env : Env) (assets : List SceneAsset) :
    Except Err (List Nat) × List Ev :=
  let evs := [Ev.writeImageList (imageListContent env.renderNum assets),
              Ev.writeAudioList (audioListContent assets), Ev.encode]
  if env.encodeOk then
    if env.videoBytes.isEmpty then (.error .emptyVideo, evs ++ [.readVideo])
    else (.ok env.videoBytes, evs ++ [.readVideo])
  else (.error .encodeFailed, evs)

/-- The deterministic storage key `note-videos/<noteId>.mp4`. -/
def videoKey (noteId : Int) : Str :=
  ("note-videos/".data) ++ intStr noteId ++ (".mp4".data)

/-- The upload of the finished video as seen by the pipeline. -/
def uploadStep (env : Env) (noteId : Int) : Except Err Str × List Ev :=
  let key := videoKey noteId
  if env.uploadOk then (.ok (env.publicUrlOf key), [.upload ("videos".data) key])
  else (.error .storageFailed, [.upload ("videos".data) key])

/-- The body of the `try` block of `generateVideoAndUpload`. -/
def pipelineBody (env : Env) (noteId : Int) (noteText subjectName : Str) :
    Except Err Str × List Ev :=
  let scenes := splitScenes noteText
  if scenes.isEmpty then (.error .couldNotSplit, [])
  else
    match runScenes env subjectName 0 scenes with
    | (.error e, evs) => (.error e, evs)
    | (.ok assets, evs) =>
      match assembleStep env assets with
      | (.error e, evs2) => (.error e, evs ++ evs2)
      | (.ok _, evs2) =>
        match uploadStep env noteId with
        | (r, evs3) => (r, evs ++ evs2 ++ evs3)

/-- The function `generateVideoAndUpload`: `mkdtemp`, then the `try` body, then the
unconditional `finally` removal of the temp directory. -/
def generateVideoAndUpload (env : Env) (noteId : Int) (noteText subjectName : Str) :
    Except Err Str × List Ev :=
  let r := pipelineBody env noteId noteText subjectName
  (r.1, Ev.mkTempDir :: (r.2 ++ [Ev.rmTempDir]))

/-! ### The ffprobe duration helper (`getAudioDuration`, spawn variant)

`spawn(ffprobe, [...]); on close: code === 0 ? parseFloat(output.trim())
with NaN mapped to 0 : reject(FFPROBE failed with code ...)`. -/

/-- Value of a digit run read in base 10. -/
def natOfDigits (l : Str) : Nat := l.foldl (fun n c => 10 * n + (c.toNat - 48)) 0

/-- JS `parseFloat` restricted to the shapes ffprobe emits: an optional
sign, then decimal digits with an optional fractional part; `none` models
`NaN` (no parsable numeric prefix, e.g. `"N/A"`). -/
def parseFloatCore (l : Str) : Option ℚ :=
  let intPart := l.takeWhile Char.isDigit
  let rest := l.dropWhile Char.isDigit
  match rest with
  | '.' :: rest2 =>
    let fracPart := rest2.takeWhile Char.isDigit
    if intPart.isEmpty && fracPart.isEmpty then none
    else some ((natOfDigits intPart : ℚ) + (natOfDigits fracPart : ℚ) / ((10 : ℚ) ^ fracPart.length))
  | _ => if intPart.isEmpty then none else some ((natOfDigits intPart : ℚ))

/-- JS `parseFloat` with the optional leading sign. -/
def parseFloat : Str → Option ℚ
  | '-' :: rest => (parseFloatCore rest).map (fun q => -q)
  | '+' :: rest => parseFloatCore rest
  | l => parseFloatCore l

/-- The helper `getAudioDuration` (spawn variant): given the subprocess exit code and
collected stdout, resolve `parseFloat(output.trim())` with `NaN ↦ 0`, or
reject on a nonzero exit code. -/
def getAudioDuration (exitCode : Nat) (output : Str) : Except Str ℚ :=
  if exitCode = 0 then
    .ok (match parseFloat (trim output) with | none => 0 | some d => d)
  else
    .error (("FFPROBE failed with code ".data) ++ natStr exitCode)

/-! ### The storage publisher (`uploadVideoToSupabase`)

The storage backend is a key→bytes map; `upload` with `upsert: true`
replaces any existing object, while without it an existing object is an
"already exists" error (the documented Supabase storage contract). -/

/-- Object storage content of one bucket: key → bytes. -/
def StorageState := List (Str × List Nat)

/-- Look up a key. -/
def stGet (st : StorageState) (k : Str) : Option (List Nat) :=
  (st.find? (fun p => p.1 = k)).map (fun p => p.2)

/-- Bind a key, replacing any previous binding. -/
def stSet (st : StorageState) (k : Str) (v : List Nat) : StorageState :=
  (k, v) :: (st.filter (fun p => !(p.1 = k)))

/-- The SDK call `storage.from(bucket).upload(path, bytes, upsert)`: with `upsert`
the object at the key is replaced; without it a bound key is rejected. -/
def storageUpload (st : StorageState) (k : Str) (bytes : List Nat) (upsert : Bool) :
    Except Unit StorageState :=
  if upsert then .ok (stSet st k bytes)
  else
    match stGet st k with
    | some _ => .error ()
    | none => .ok (stSet st k bytes)

/-- The helper `uploadVideoToSupabase`: upload under `note-videos/<noteId>.mp4` with
`upsert: true`, then return `getPublicUrl` of the same key. -/
def uploadVideoToSupabase (st : StorageState) (noteId : Int) (videoBuffer : List Nat)
    (publicUrlOf : Str → Str) : Except Err (Str × StorageState) :=
  match storageUpload st (videoKey noteId) videoBuffer true with
  | .error _ => .error .storageFailed
  | .ok st2 => .ok (publicUrlOf (videoKey noteId), st2)

/-! ### The request gateway (`POST /generate-video`, `index.ts` lines 22–49) -/

/-- A JSON body field value, as far as the handler's truthiness tests look
at it. -/
inductive JsVal
  | num (n : Int)
  | str (s : Str)
  deriving DecidableEq, Repr

/-- JS truthiness of a possibly absent field (`undefined`, `0` and `""` are
falsy). -/
def truthy : Option JsVal → Bool
  | none => false
  | some (.num n) => !(n = 0)
  | some (.str s) => !s.isEmpty

/-- One incoming request: the `authorization` header and the three body
fields the handler destructures. -/
structure GenReq where
  authHeader : Option Str
  noteId : Option JsVal
  noteText : Option JsVal
  subjectName : Option JsVal

/-- What the handler decides to do before any orchestration. -/
inductive HandlerStep
  | unauthorized
  | badRequest
  | runOrchestrator
  deriving DecidableEq, Repr

/-- The guard cascade of the handler: exact `Bearer <secret>` match first,
then the truthiness test of the three required fields. -/
def gatewayDecision (secret : Str) (r : GenReq) : HandlerStep :=
  if r.authHeader ≠ some (("Bearer ".data) ++ secret) then .unauthorized
  else if ¬(truthy r.noteId && truthy r.noteText && truthy r.subjectName) then .badRequest
  else .runOrchestrator

/-- The JSON response bodies the handler can produce. -/
inductive RespBody
  | unauthorized
  | missingParams
  | complete (videoUrl : Str)
  | serverError (details : Str)
  deriving DecidableEq, Repr

/-- The full handler: HTTP status and body, given the orchestrator's
outcome (consulted only on `runOrchestrator`). -/
def gatewayRespond (secret : Str) (r : GenReq) (orch : Except Str Str) :
    Nat × RespBody :=
  match gatewayDecision secret r with
  | .unauthorized => (401, .unauthorized)
  | .badRequest => (400, .missingParams)
  | .runOrchestrator =>
    match orch with
    | .ok url => (200, .complete url)
    | .error msg => (500, .serverError msg)

/-! ### Manifest line structure -/

/-- The structural lines of a text file: split on `'\n'`. -/
def splitNl : Str → List Str
  | [] => [[]]
  | c :: rest =>
    if c = '\n' then [] :: splitNl rest
    else
      match splitNl rest with
      | [] => [[c]]
      | l :: ls => (c :: l) :: ls

/-- A piece of text that stays on one line. -/
def NoNl (s : Str) : Prop := ∀ c ∈ s, c ≠ '\n'

instance (s : Str) : Decidable (NoNl s) := List.decidableBAll _ s

/-! ### Claim theorems -/

/-- Event classifier: a Hugging Face fetch. -/
def isFetchEv : Ev → Bool
  | .imgFetch _ => true
  | _ => false

/-- Event classifier: the fixed 20-second sleep. -/
def isSleepEv : Ev → Bool
  | .sleep20 => true
  | _ => false

/-- C1 (counterexample): the input "." contains a sentence terminator, yet
the splitter produces the empty sequence, so the claimed non-empty scene
sequence (and with it the claimed reconstruction) fails at this input. -/
theorem c1_counterexample :
    (".".data).any isTerm = true ∧ splitScenes (".".data) = [] := by
  decide

/-- C1 (amended): for every input text containing at least one terminator
preceded by at least one non-terminator character, the splitter produces a
non-empty ordered scene sequence whose concatenation reconstructs the
input's sentence content after its leading terminator run: the input minus
its leading terminators, up to and including its last terminator. -/
theorem c1_scene_splitter_reconstructs (s : Str) (h : hasSentence s = true) :
    splitScenes s ≠ [] ∧ (splitScenes s).flatten = sentenceContent s :=
  splitScenes_spec s h

/-- Witness for C1 at the concrete input "Hi there. Bye!". -/
theorem c1_witness :
    hasSentence ("Hi there. Bye!".data) = true ∧
      (splitScenes ("Hi there. Bye!".data) ≠ [] ∧
        (splitScenes ("Hi there. Bye!".data)).flatten = sentenceContent ("Hi there. Bye!".data)) :=
  ⟨by decide, c1_scene_splitter_reconstructs ("Hi there. Bye!".data) (by decide)⟩

/-- C2: an input with zero sentence terminators makes the run fail with the
empty-input error, and its trace holds exactly the temp-directory creation
and removal — no network call, no file write, no per-scene processing. -/
theorem c2_empty_input_short_circuits (env : Env) (noteId : Int)
    (noteText subjectName : Str) (h : noteText.any isTerm = false) :
    (generateVideoAndUpload env noteId noteText subjectName).1 = .error .couldNotSplit ∧
    (generateVideoAndUpload env noteId noteText subjectName).2 = [.mkTempDir, .rmTempDir] := by
  have hsplit : splitScenes noteText = [] := sceneGo_no_term _ _ h
  constructor <;> simp [generateVideoAndUpload, pipelineBody, hsplit]

/-- Witness for C2 at the terminator-free input "hello world". -/
theorem c2_witness :
    ("hello world".data).any isTerm = false ∧
      ((generateVideoAndUpload ⟨[], fun _ => .ok [], fun _ _ => ⟨200, [], []⟩,
          fun _ => .ok none, true, [], true, fun k => k, fun _ => []⟩
          7 ("hello world".data) ("Biology".data)).1 = .error .couldNotSplit ∧
        (generateVideoAndUpload ⟨[], fun _ => .ok [], fun _ _ => ⟨200, [], []⟩,
          fun _ => .ok none, true, [], true, fun k => k, fun _ => []⟩
          7 ("hello world".data) ("Biology".data)).2 = [.mkTempDir, .rmTempDir]) :=
  ⟨by decide, c2_empty_input_short_circuits _ 7 _ ("Biology".data) (by decide)⟩

/-- C3: a first response with status 503 leads to one 20-second sleep and
exactly one further fetch (two fetches in total), the second response then
deciding the outcome, carrying its status and body on failure; a first
response that is non-503 and non-ok is an immediate terminal failure after
a single fetch; no branch ever issues a third fetch. -/
theorem c3_image_retry_policy (r1 r2 : HttpResp) (prompt imagePath : Str) :
    ((imageStep r1 r2 prompt imagePath).2.countP isFetchEv ≤ 2) ∧
    (r1.status = 503 →
      (imageStep r1 r2 prompt imagePath).2.countP isFetchEv = 2 ∧
      (imageStep r1 r2 prompt imagePath).2.countP isSleepEv = 1 ∧
      (r2.isOk = false →
        (imageStep r1 r2 prompt imagePath).1 = .error (.imageFailed r2.status r2.body))) ∧
    (r1.status ≠ 503 → r1.isOk = false →
      imageStep r1 r2 prompt imagePath =
        (.error (.imageFailed r1.status r1.body), [.imgFetch prompt])) := by
  by_cases h1 : r1.status = 503
  · by_cases h2 : r2.isOk = true
    · refine ⟨?_, fun _ => ⟨?_, ?_, fun hc => absurd h2 (by simp [hc])⟩, fun hne _ => absurd h1 hne⟩ <;>
        simp [imageStep, h1, h2, isFetchEv, isSleepEv, List.countP_cons]
    · have h2' : r2.isOk = false := by
        cases hc : r2.isOk with
        | true => exact absurd hc h2
        | false => rfl
      refine ⟨?_, fun _ => ⟨?_, ?_, fun _ => ?_⟩, fun hne _ => absurd h1 hne⟩ <;>
        simp [imageStep, h1, h2', isFetchEv, isSleepEv, List.countP_cons]
  · by_cases h2 : r1.isOk = true
    · refine ⟨?_, fun hc => absurd hc h1, fun _ hf => absurd h2 (by simp [hf])⟩
      simp [imageStep, h1, h2, isFetchEv, List.countP_cons]
    · have h2' : r1.isOk = false := by
        cases hc : r1.isOk with
        | true => exact absurd hc h2
        | false => rfl
      refine ⟨?_, fun hc => absurd hc h1, fun _ _ => ?_⟩ <;>
        simp [imageStep, h1, h2', isFetchEv, List.countP_cons]

/-- Witness for C3: a 503 then a 500 gives two fetches, one sleep, and the
terminal error carrying the second response's status and body. -/
theorem c3_witness :
    (imageStep ⟨503, ("b1".data), []⟩ ⟨500, ("busy".data), []⟩ ("p".data) ("ip".data)).2.countP
        isFetchEv = 2 ∧
    (imageStep ⟨503, ("b1".data), []⟩ ⟨500, ("busy".data), []⟩ ("p".data) ("ip".data)).2.countP
        isSleepEv = 1 ∧
    (imageStep ⟨503, ("b1".data), []⟩ ⟨500, ("busy".data), []⟩ ("p".data) ("ip".data)).1 =
      .error (.imageFailed 500 ("busy".data)) := by
  have h := (c3_image_retry_policy ⟨503, ("b1".data), []⟩ ⟨500, ("busy".data), []⟩
    ("p".data) ("ip".data)).2.1 rfl
  exact ⟨h.1, h.2.1, h.2.2 (by decide)⟩

/-- C5: every run, whether it returns a URL or exits with an error at any
step, begins by creating the request-scoped temp directory and ends by
recursively removing it. -/
theorem c5_temp_dir_always_removed (env : Env) (noteId : Int)
    (noteText subjectName : Str) :
    (generateVideoAndUpload env noteId noteText subjectName).2.head? = some .mkTempDir ∧
    (generateVideoAndUpload env noteId noteText subjectName).2.getLast? = some .rmTempDir := by
  constructor
  · rfl
  · show (Ev.mkTempDir :: ((pipelineBody env noteId noteText subjectName).2 ++ [Ev.rmTempDir])).getLast?
      = some .rmTempDir
    rw [← List.cons_append, List.getLast?_concat]

/-- C6: the duration probe rejects exactly on a nonzero subprocess exit
code; on exit code 0 with output that has no parsable numeric prefix it
resolves 0 rather than an error. -/
theorem c6_probe_contract (exitCode : Nat) (output : Str) :
    ((getAudioDuration exitCode output).isOk = true ↔ exitCode = 0) ∧
    (exitCode = 0 → parseFloat (trim output) = none →
      getAudioDuration exitCode output = .ok 0) := by
  constructor
  · by_cases h : exitCode = 0 <;> simp [getAudioDuration, h, Except.isOk, Except.toBool]
  · intro h hp
    simp [getAudioDuration, h, hp]

/-- Witness for C6: exit code 0 with the unparsable output "N/A" resolves
0, and exit code 1 rejects. -/
theorem c6_witness :
    getAudioDuration 0 ("N/A".data) = .ok 0 ∧
      (getAudioDuration 1 ("N/A".data)).isOk = false :=
  ⟨(c6_probe_contract 0 ("N/A".data)).2 rfl (by decide),
    by
      have h := (c6_probe_contract 1 ("N/A".data)).1
      cases hc : (getAudioDuration 1 ("N/A".data)).isOk with
      | true => exact absurd (h.mp hc) (by decide)
      | false => rfl⟩

/-- C7: the TTS step fails — without writing any audio file — whenever the
collected stream buffer is empty, and an authentication rejection (SDK
error with status code 401) produces the distinct auth error. -/
theorem c7_tts_contract (o : TtsOutcome) (sceneText audioPath : Str) :
    (o = .ok [] →
      (ttsStep o sceneText audioPath).1 = .error (.ttsFailed
        ("ElevenLabs SDK failed: ElevenLabs SDK returned an empty audio stream.".data)) ∧
      (ttsStep o sceneText audioPath).2 = [.ttsCall sceneText]) ∧
    (∀ msg, o = .err (some 401) msg →
      (ttsStep o sceneText audioPath).1 = .error .ttsAuth ∧
      (ttsStep o sceneText audioPath).2 = [.ttsCall sceneText]) := by
  constructor
  · intro h
    rw [h]
    exact ⟨rfl, rfl⟩
  · intro msg h
    rw [h]
    exact ⟨rfl, rfl⟩

/-- Witness for C7: the empty buffer and the 401 rejection, concretely. -/
theorem c7_witness :
    (ttsStep (.ok []) ("t".data) ("a".data)).1 = .error (.ttsFailed
      ("ElevenLabs SDK failed: ElevenLabs SDK returned an empty audio stream.".data)) ∧
    (ttsStep (.err (some 401) ("denied".data)) ("t".data) ("a".data)).1 = .error .ttsAuth :=
  ⟨((c7_tts_contract (.ok []) ("t".data) ("a".data)).1 rfl).1,
    ((c7_tts_contract (.err (some 401) ("denied".data)) ("t".data) ("a".data)).2
      ("denied".data) rfl).1⟩

/-- C8: the gateway checks the Authorization header first (mismatch → 401
with no further processing), only then the three body fields (any missing
→ 400), and maps the orchestration outcome to 200 `{status:"complete",
videoUrl}` on success and to 500 with the underlying error's message on
any thrown error. -/
theorem c8_gateway_policy (secret : Str) (r : GenReq) (orch : Except Str Str) :
    (r.authHeader ≠ some (("Bearer ".data) ++ secret) →
      gatewayDecision secret r = .unauthorized ∧
      gatewayRespond secret r orch = (401, .unauthorized)) ∧
    (r.authHeader = some (("Bearer ".data) ++ secret) →
      ((r.noteId = none ∨ r.noteText = none ∨ r.subjectName = none) →
        gatewayDecision secret r = .badRequest ∧
        gatewayRespond secret r orch = (400, .missingParams)) ∧
      ((truthy r.noteId && truthy r.noteText && truthy r.subjectName) = true →
        (∀ url, orch = .ok url → gatewayRespond secret r orch = (200, .complete url)) ∧
        (∀ msg, orch = .error msg →
          gatewayRespond secret r orch = (500, .serverError msg)))) := by
  constructor
  · intro h
    have hd : gatewayDecision secret r = .unauthorized := by
      rw [gatewayDecision, if_pos h]
    exact ⟨hd, by simp only [gatewayRespond, hd]⟩
  · intro h
    constructor
    · intro hmiss
      have hf : (truthy r.noteId && truthy r.noteText && truthy r.subjectName) = false := by
        rcases hmiss with hm | hm | hm <;> simp [hm, truthy]
      have hd : gatewayDecision secret r = .badRequest := by
        rw [gatewayDecision, if_neg (fun hn => hn h), if_pos (by simp [hf])]
      exact ⟨hd, by simp only [gatewayRespond, hd]⟩
    · intro ht
      have hd : gatewayDecision secret r = .runOrchestrator := by
        rw [gatewayDecision, if_neg (fun hn => hn h), if_neg (by simp [ht])]
      constructor
      · intro url ho
        simp only [gatewayRespond, hd, ho]
      · intro msg ho
        simp only [gatewayRespond, hd, ho]

/-- Witness for C8: a wrong header gets 401; with the right header, a
missing `noteText` gets 400, a successful orchestration gets 200 with the
URL, and a failing one gets 500 with the error message. -/
theorem c8_witness :
    gatewayRespond ("s".data) ⟨some ("nope".data), some (.num 1), some (.str ("t".data)),
        some (.str ("b".data))⟩ (.ok ("u".data)) = (401, .unauthorized) ∧
    gatewayRespond ("s".data) ⟨some ("Bearer s".data), some (.num 1), none,
        some (.str ("b".data))⟩ (.ok ("u".data)) = (400, .missingParams) ∧
    gatewayRespond ("s".data) ⟨some ("Bearer s".data), some (.num 1), some (.str ("t".data)),
        some (.str ("b".data))⟩ (.ok ("u".data)) = (200, .complete ("u".data)) ∧
    gatewayRespond ("s".data) ⟨some ("Bearer s".data), some (.num 1), some (.str ("t".data)),
        some (.str ("b".data))⟩ (.error ("boom".data)) = (500, .serverError ("boom".data)) := by
  refine ⟨((c8_gateway_policy ("s".data) _ _).1 (by decide)).2,
    (((c8_gateway_policy ("s".data) _ _).2 (by decide)).1 (by simp)).2,
    (((c8_gateway_policy ("s".data) _ _).2 (by decide)).2 (by decide)).1 ("u".data) rfl,
    (((c8_gateway_policy ("s".data) _ _).2 (by decide)).2 (by decide)).2 ("boom".data) rfl⟩

/-- C9: the video is uploaded under the deterministic key
`note-videos/<noteId>.mp4`; publishing twice with the same note id succeeds
both times (upsert replaces, never an "already exists" failure), leaves the
second bytes at the key, and each publish returns the key's public URL. -/
theorem c9_upload_overwrites (st : StorageState) (noteId : Int)
    (b1 b2 : List Nat) (pub : Str → Str) :
    videoKey noteId = ("note-videos/".data) ++ intStr noteId ++ (".mp4".data) ∧
    ∃ st1 st2,
      uploadVideoToSupabase st noteId b1 pub = .ok (pub (videoKey noteId), st1) ∧
      uploadVideoToSupabase st1 noteId b2 pub = .ok (pub (videoKey noteId), st2) ∧
      stGet st2 (videoKey noteId) = some b2 := by
  refine ⟨rfl, stSet st (videoKey noteId) b1,
    stSet (stSet st (videoKey noteId) b1) (videoKey noteId) b2, ?_, ?_, ?_⟩
  · simp [uploadVideoToSupabase, storageUpload]
  · simp [uploadVideoToSupabase, storageUpload]
  · simp [stGet, stSet]

/-- C10 (counterexample): a request whose `noteId` is present but `0` and
whose Authorization header does not match is answered 401, not the claimed
400. -/
theorem c10_counterexample :
    gatewayRespond ("sec".data)
        ⟨none, some (.num 0), some (.str ("x".data)), some (.str ("y".data))⟩
        (.ok ("u".data)) = (401, .unauthorized) ∧
    gatewayRespond ("sec".data)
        ⟨none, some (.num 0), some (.str ("x".data)), some (.str ("y".data))⟩
        (.ok ("u".data)) ≠ (400, .missingParams) := by
  decide

/-- C10 (amended): for every request with a matching Authorization header
in which `noteId`, `noteText` or `subjectName` is present but falsy
(`noteId` equal to 0, or `noteText` or `subjectName` equal to the empty
string), the gateway responds 400 and never reaches the orchestrator. -/
theorem c10_falsy_fields_rejected (secret : Str) (r : GenReq)
    (orch : Except Str Str)
    (hauth : r.authHeader = some (("Bearer ".data) ++ secret))
    (hfalsy : r.noteId = some (.num 0) ∨ r.noteText = some (.str []) ∨
      r.subjectName = some (.str [])) :
    gatewayRespond secret r orch = (400, .missingParams) ∧
    gatewayDecision secret r ≠ .runOrchestrator := by
  have hf : (truthy r.noteId && truthy r.noteText && truthy r.subjectName) = false := by
    rcases hfalsy with hm | hm | hm <;> simp [hm, truthy]
  have hd : gatewayDecision secret r = .badRequest := by
    rw [gatewayDecision, if_neg (fun hn => hn hauth), if_pos (by simp [hf])]
  exact ⟨by simp only [gatewayRespond, hd], by simp [hd]⟩

/-- Witness for C10 at a concrete authorized request with `noteId = 0`. -/
theorem c10_witness :
    gatewayRespond ("sec".data)
        ⟨some ("Bearer sec".data), some (.num 0), some (.str ("x".data)),
          some (.str ("y".data))⟩ (.ok ("u".data)) = (400, .missingParams) ∧
    gatewayDecision ("sec".data)
        ⟨some ("Bearer sec".data), some (.num 0), some (.str ("x".data)),
          some (.str ("y".data))⟩ ≠ .runOrchestrator :=
  c10_falsy_fields_rejected ("sec".data)
    ⟨some ("Bearer sec".data), some (.num 0), some (.str ("x".data)),
      some (.str ("y".data))⟩ (.ok ("u".data)) (by decide) (Or.inl rfl)

/-! ### Manifest line lemmas (C4) -/

theorem noNl_append (s t : Str) (hs : NoNl s) (ht : NoNl t) : NoNl (s ++ t) := by
  intro c hc
  rcases List.mem_append.mp hc with h | h
  · exact hs c h
  · exact ht c h

theorem noNl_fileLine (p : Str) (h : NoNl p) : NoNl (fileLine p) := by
  apply noNl_append
  · decide
  · intro c hc
    rcases List.mem_cons.mp hc with h1 | h1
    · rw [h1]; decide
    · rcases List.mem_append.mp h1 with h2 | h2
      · exact h c h2
      · have hcq : c = squote := by simpa using h2
        rw [hcq]; decide

theorem noNl_durationLine (ρ : ℚ → Str) (q : ℚ) (h : NoNl (ρ q)) :
    NoNl (durationLine ρ q) := by
  apply noNl_append
  · decide
  · exact h

theorem splitNl_noNl (s : Str) (h : NoNl s) : splitNl s = [s] := by
  induction s with
  | nil => rfl
  | cons c t ih =>
    have hc : ¬(c = '\n') := h c (by simp)
    simp only [splitNl]
    rw [if_neg hc, ih (fun x hx => h x (by simp [hx]))]

theorem splitNl_append (xs ys : Str) (h : NoNl xs) :
    splitNl (xs ++ '\n' :: ys) = xs :: splitNl ys := by
  induction xs with
  | nil => simp [splitNl]
  | cons c t ih =>
    have hc : ¬(c = '\n') := h c (by simp)
    rw [List.cons_append]
    simp only [splitNl]
    rw [if_neg hc, ih (fun x hx => h x (by simp [hx]))]

theorem splitNl_intercalateNl (parts : List Str) :
    parts ≠ [] → (∀ p ∈ parts, NoNl p) →
      splitNl (intercalateNl parts) = parts := by
  induction parts with
  | nil => intro h; contradiction
  | cons x t ih =>
    intro _ h
    cases t with
    | nil => exact splitNl_noNl x (h x (by simp))
    | cons y u =>
      have hstep : intercalateNl (x :: y :: u) = x ++ '\n' :: intercalateNl (y :: u) := rfl
      rw [hstep, splitNl_append x _ (h x (by simp)),
        ih (by simp) (fun p hp => h p (by simp [hp]))]

/-- The image-list manifest splits, line by line, into the
`file`-line/`duration`-line pairs of the assets, in asset order. -/
theorem splitNl_imageList (ρ : ℚ → Str) :
    ∀ assets : List SceneAsset, assets ≠ [] →
      (∀ a ∈ assets, NoNl a.imagePath ∧ NoNl (ρ a.duration)) →
      splitNl (imageListContent ρ assets) =
        (assets.map (fun a => [fileLine a.imagePath, durationLine ρ a.duration])).flatten := by
  intro assets
  induction assets with
  | nil => intro h; contradiction
  | cons a t ih =>
    intro _ h
    have hfl : NoNl (fileLine a.imagePath) := noNl_fileLine _ (h a (by simp)).1
    have hdl : NoNl (durationLine ρ a.duration) := noNl_durationLine _ _ (h a (by simp)).2
    cases t with
    | nil =>
      have hstep : imageListContent ρ [a] =
          fileLine a.imagePath ++ '\n' :: durationLine ρ a.duration := rfl
      rw [hstep, splitNl_append _ _ hfl, splitNl_noNl _ hdl]
      rfl
    | cons b u =>
      have hstep : imageListContent ρ (a :: b :: u) =
          fileLine a.imagePath ++ '\n' ::
            (durationLine ρ a.duration ++ '\n' :: imageListContent ρ (b :: u)) := by
        show intercalateNl (imageEntry ρ a :: imageEntry ρ b :: (u.map (imageEntry ρ))) = _
        rw [show intercalateNl (imageEntry ρ a :: imageEntry ρ b :: (u.map (imageEntry ρ))) =
            imageEntry ρ a ++ '\n' :: intercalateNl (imageEntry ρ b :: (u.map (imageEntry ρ)))
          from rfl]
        rw [show imageEntry ρ a =
            fileLine a.imagePath ++ '\n' :: durationLine ρ a.duration from rfl]
        rw [List.append_assoc, List.cons_append]
        rfl
      rw [hstep, splitNl_append _ _ hfl, splitNl_append _ _ hdl,
        ih (by simp) (fun p hp => h p (by simp [hp]))]
      rfl

/-- The audio-list manifest splits, line by line, into one `file` line per
asset, in asset order. -/
theorem splitNl_audioList :
    ∀ assets : List SceneAsset, assets ≠ [] →
      (∀ a ∈ assets, NoNl a.audioPath) →
      splitNl (audioListContent assets) = assets.map (fun a => fileLine a.audioPath) := by
  intro assets hne h
  apply splitNl_intercalateNl
  · simp [hne]
  · intro p hp
    rcases List.mem_map.mp hp with ⟨a, ha, rfl⟩
    exact noNl_fileLine _ (h a ha)

/-! ### Scene-loop characterisation (C4) -/

/-- A successful scene iteration records exactly the per-index temp paths. -/
theorem runScene_ok_paths (env : Env) (subjectName : Str) (i : Nat) (sc : Str)
    (a : SceneAsset) (h : (runScene env subjectName i sc).1 = .ok a) :
    a.audioPath = sceneAudioPath env.tempDir i ∧
    a.imagePath = sceneImagePath env.tempDir i := by
  simp only [runScene] at h
  split at h
  · simp at h
  · split at h
    · simp at h
    · split at h
      · simp at h
      · simp only [] at h
        have ha := Except.ok.inj h
        rw [← ha]
        exact ⟨rfl, rfl⟩

/-- A successful scene loop yields one asset per scene, in scene order,
with the paths of consecutive indices. -/
theorem runScenes_ok (env : Env) (subjectName : Str) :
    ∀ scenes : List Str, ∀ i : Nat, ∀ assets : List SceneAsset,
      (runScenes env subjectName i scenes).1 = .ok assets →
      assets.length = scenes.length ∧
      ∀ j (hj : j < assets.length),
        (assets.get ⟨j, hj⟩).audioPath = sceneAudioPath env.tempDir (i + j) ∧
        (assets.get ⟨j, hj⟩).imagePath = sceneImagePath env.tempDir (i + j) := by
  intro scenes
  induction scenes with
  | nil =>
    intro i assets h
    simp only [runScenes] at h
    have : ([] : List SceneAsset) = assets := Except.ok.inj h
    rw [← this]
    exact ⟨rfl, fun j hj => absurd hj (by simp)⟩
  | cons sc rest ih =>
    intro i assets h
    simp only [runScenes] at h
    rcases hscene : runScene env subjectName i sc with ⟨r1, e1⟩
    rw [hscene] at h
    cases r1 with
    | error e => simp at h
    | ok a =>
      rcases hrest : runScenes env subjectName (i + 1) rest with ⟨r2, e2⟩
      rw [hrest] at h
      cases r2 with
      | error e => simp at h
      | ok as =>
        simp only [] at h
        have hassets : a :: as = assets := Except.ok.inj h
        have hpaths := runScene_ok_paths env subjectName i sc a (by rw [hscene])
        have hih := ih (i + 1) as (by rw [hrest])
        rw [← hassets]
        refine ⟨by simp [hih.1], ?_⟩
        intro j hj
        cases j with
        | zero =>
          simpa using hpaths
        | succ k =>
          have hk : k < as.length := by simpa using hj
          have := hih.2 k hk
          have harith : i + 1 + k = i + (k + 1) := by omega
          rw [harith] at this
          simpa using this

theorem flatten_pairs_length {α β : Type} (f g : α → β) (l : List α) :
    ((l.map (fun a => [f a, g a])).flatten).length = 2 * l.length := by
  induction l with
  | nil => rfl
  | cons a t ih =>
    simp only [List.map_cons, List.flatten_cons, List.length_append, List.length_cons,
      List.length_nil, ih, List.length_map]
    omega

/-- C4: a run that reaches manifest writing with its scene assets writes an
image-list manifest of exactly one `file`/`duration` line pair per asset
and an audio-list manifest of exactly one `file` line per asset, both in
splitter order: asset `j` carries the index-`j` scene paths. -/
theorem c4_manifest_structure (env : Env) (subjectName : Str) (scenes : List Str)
    (assets : List SceneAsset)
    (hne : scenes ≠ [])
    (hok : (runScenes env subjectName 0 scenes).1 = .ok assets)
    (hnl : ∀ a ∈ assets,
      NoNl a.imagePath ∧ NoNl a.audioPath ∧ NoNl (env.renderNum a.duration)) :
    assets.length = scenes.length ∧
    splitNl (imageListContent env.renderNum assets) =
      (assets.map (fun a =>
        [fileLine a.imagePath, durationLine env.renderNum a.duration])).flatten ∧
    (splitNl (imageListContent env.renderNum assets)).length = 2 * scenes.length ∧
    splitNl (audioListContent assets) = assets.map (fun a => fileLine a.audioPath) ∧
    (splitNl (audioListContent assets)).length = scenes.length ∧
    ∀ j (hj : j < assets.length),
      (assets.get ⟨j, hj⟩).audioPath = sceneAudioPath env.tempDir j ∧
      (assets.get ⟨j, hj⟩).imagePath = sceneImagePath env.tempDir j := by
  have hrs := runScenes_ok env subjectName scenes 0 assets hok
  have hane : assets ≠ [] := by
    intro hnil
    rw [hnil] at hrs
    have h0 := hrs.1
    simp at h0
    exact hne (List.length_eq_zero.mp h0.symm)
  have himg := splitNl_imageList env.renderNum assets hane
    (fun a ha => ⟨(hnl a ha).1, (hnl a ha).2.2⟩)
  have haud := splitNl_audioList assets hane (fun a ha => (hnl a ha).2.1)
  refine ⟨hrs.1, himg, ?_, haud, ?_, ?_⟩
  · rw [himg, flatten_pairs_length, hrs.1]
  · rw [haud, List.length_map, hrs.1]
  · intro j hj
    have hpair := hrs.2 j hj
    simpa using hpair

/-- Concrete environment for the C4 witness. -/
def wEnv : Env :=
  ⟨("/tmp/x".data), fun _ => .ok [1], fun _ _ => ⟨200, [], [7]⟩, fun _ => .ok (some 1),
    true, [9], true, fun k => k, fun _ => ("1".data)⟩

/-- The assets the C4 witness run produces. -/
def wAssets : List SceneAsset :=
  [⟨("/tmp/x/scene_0.mp3".data), ("/tmp/x/scene_0.png".data), 1⟩,
   ⟨("/tmp/x/scene_1.mp3".data), ("/tmp/x/scene_1.png".data), 1⟩]

/-- Witness for C4 at a concrete two-scene run. -/
theorem c4_witness :
    splitNl (imageListContent wEnv.renderNum wAssets) =
      (wAssets.map (fun a =>
        [fileLine a.imagePath, durationLine wEnv.renderNum a.duration])).flatten ∧
    splitNl (audioListContent wAssets) = wAssets.map (fun a => fileLine a.audioPath) ∧
    wAssets.length = (splitScenes ("a. b.".data)).length := by
  have h := c4_manifest_structure wEnv ("Biology".data) (splitScenes ("a. b.".data)) wAssets
    (by decide) (by rfl) (by decide)
  exact ⟨h.2.1, h.2.2.2.1, h.1⟩
